import Mathlib

/-!
# Verification of the MinuteDock client library (`md.py`)

A shallow embedding of the core of the MinuteDock HTTP client:

* raw JSON records are association lists of string keys to JSON values
  (Python `dict` semantics: insertion order preserved, assignment to an
  existing key replaces the value in place, assignment to a fresh key
  appends);
* the catalog entities `User`, `Contact`, `Project` and the mutable
  `Entry` are structures holding both the original raw payload and the
  fields the constructor extracts from it;
* `Entry.update` is modelled by the payload it transmits (`updateBody`),
  which is a copy of the original raw record overlaid with the five
  client-writable fields;
* timestamp handling models `datetime.strptime(s, '%Y-%m-%dT%H:%M:%S%z')`
  applied to `s[:-3] + s[-2:]` and re-encoding with
  `strftime('%Y-%m-%dT%H:%M:%S%z')` (zero-padded fields, offset printed
  as sign plus `HHMM`);
* `entries_search` is modelled with an explicit transport function
  (the GET on `entries.json` for a given query dictionary and offset), a
  fuel-bounded pagination loop that also logs the offsets of the GET
  requests it issues, and the local post-filter for the empty project
  list.
-/

set_option maxHeartbeats 1000000

namespace MD

/-- A JSON value as it appears in the MinuteDock wire records.  Nested
arrays and objects do not occur in any field the client inspects, so the
model keeps the four scalar forms. -/
inductive JVal where
  | jnull : JVal
  | jbool : Bool → JVal
  | jnum : Int → JVal
  | jstr : String → JVal
deriving DecidableEq, Repr

/-- Python `str()` applied to a JSON scalar (used by
`str(self.users_by_login[l].user_id)` etc. when joining filter ids). -/
def jvalStr : JVal → String
  | .jnull => "None"
  | .jbool true => "True"
  | .jbool false => "False"
  | .jnum n => toString n
  | .jstr s => s

/-- A Python `dict` with keys of type `α`: an insertion-ordered
association list. -/
abbrev Dict (α : Type) (β : Type) : Type := List (α × β)

/-- Dictionary lookup (`d[k]` / `d.get(k)`): the value at the first
matching key. -/
def dlookup {α β : Type} [DecidableEq α] : Dict α β → α → Option β
  | [], _ => none
  | (k', v) :: rest, k => if k' = k then some v else dlookup rest k

/-- Dictionary assignment `d[k] = v`: replaces the value at an existing
key in place, otherwise appends the pair (Python insertion-order
semantics). -/
def setKey {α β : Type} [DecidableEq α] : Dict α β → α → β → Dict α β
  | [], k, v => [(k, v)]
  | (k', v') :: rest, k, v =>
      if k' = k then (k, v) :: rest else (k', v') :: setKey rest k v

/-- The key sequence of a dictionary. -/
def dkeys {α β : Type} (d : Dict α β) : List α := d.map Prod.fst

/-! ## Timestamps

`Entry.__init__` runs `datetime.strptime(date[:-3] + date[-2:],
'%Y-%m-%dT%H:%M:%S%z')` on the raw `logged_at` string, and
`Entry.update` re-encodes it with `strftime('%Y-%m-%dT%H:%M:%S%z')`.
The model is an aware timestamp of calendar components plus a
UTC-offset in minutes. -/

/-- An aware timestamp as produced by `strptime` with format
`%Y-%m-%dT%H:%M:%S%z`: calendar fields plus the UTC offset in
minutes. -/
structure MDDateTime where
  year : Nat
  month : Nat
  day : Nat
  hour : Nat
  minute : Nat
  second : Nat
  offMin : Int
deriving DecidableEq, Repr

/-- Gregorian leap-year test. -/
def isLeap (y : Nat) : Bool := (y % 4 == 0 && y % 100 != 0) || y % 400 == 0

/-- Days in a month of the proleptic Gregorian calendar. -/
def daysInMonth (y m : Nat) : Nat :=
  if m = 2 then (if isLeap y then 29 else 28)
  else if m = 4 ∨ m = 6 ∨ m = 9 ∨ m = 11 then 30
  else 31

/-- Range checks performed by `datetime` construction (and by the
`strptime` field patterns): `datetime.MINYEAR = 1`, four-digit year,
valid calendar day, clock fields in range, offset strictly inside one
day (`datetime.timezone` bounds). -/
def ValidDT (dt : MDDateTime) : Prop :=
  1 ≤ dt.year ∧ dt.year ≤ 9999 ∧ 1 ≤ dt.month ∧ dt.month ≤ 12 ∧
  1 ≤ dt.day ∧ dt.day ≤ daysInMonth dt.year dt.month ∧
  dt.hour ≤ 23 ∧ dt.minute ≤ 59 ∧ dt.second ≤ 59 ∧ dt.offMin.natAbs ≤ 1439

instance (dt : MDDateTime) : Decidable (ValidDT dt) := by
  unfold ValidDT; infer_instance

/-- Builds a timestamp after the `datetime` range checks; `none` models
the `ValueError` that `strptime` raises on an out-of-range component. -/
def mkValidDT (y mo d h mi s : Nat) (off : Int) : Option MDDateTime :=
  if ValidDT ⟨y, mo, d, h, mi, s, off⟩ then some ⟨y, mo, d, h, mi, s, off⟩ else none

/-- Numeric value of a decimal digit character. -/
def dval (c : Char) : Nat := c.toNat - 48

/-- Value of a two-digit decimal field. -/
def d2 (a b : Char) : Nat := 10 * dval a + dval b

/-- Value of a four-digit decimal field. -/
def d4 (a b c d : Char) : Nat := 1000 * dval a + 100 * dval b + 10 * dval c + dval d

/-- The decimal digit character for `n % 10`. -/
def dchar (n : Nat) : Char :=
  match n with
  | 0 => '0' | 1 => '1' | 2 => '2' | 3 => '3' | 4 => '4'
  | 5 => '5' | 6 => '6' | 7 => '7' | 8 => '8' | 9 => '9'
  | _ => '0'

/-- Model of `strptime(s, '%Y-%m-%dT%H:%M:%S%z')` on a character list:
the canonical fixed-width form `YYYY-MM-DDTHH:MM:SS±HHMM` (24
characters, offset without a colon — the shape that
`Entry.__init__`'s slicing produces from the wire format). -/
def parseTSChars (l : List Char) : Option MDDateTime :=
  if l.length = 24 then
    if l.getD 4 ' ' = '-' ∧ l.getD 7 ' ' = '-' ∧ l.getD 10 ' ' = 'T' ∧
       l.getD 13 ' ' = ':' ∧ l.getD 16 ' ' = ':' ∧
       (l.getD 19 ' ' = '+' ∨ l.getD 19 ' ' = '-') ∧
       (l.getD 0 ' ').isDigit ∧ (l.getD 1 ' ').isDigit ∧
       (l.getD 2 ' ').isDigit ∧ (l.getD 3 ' ').isDigit ∧
       (l.getD 5 ' ').isDigit ∧ (l.getD 6 ' ').isDigit ∧
       (l.getD 8 ' ').isDigit ∧ (l.getD 9 ' ').isDigit ∧
       (l.getD 11 ' ').isDigit ∧ (l.getD 12 ' ').isDigit ∧
       (l.getD 14 ' ').isDigit ∧ (l.getD 15 ' ').isDigit ∧
       (l.getD 17 ' ').isDigit ∧ (l.getD 18 ' ').isDigit ∧
       (l.getD 20 ' ').isDigit ∧ (l.getD 21 ' ').isDigit ∧
       (l.getD 22 ' ').isDigit ∧ (l.getD 23 ' ').isDigit then
      mkValidDT (d4 (l.getD 0 ' ') (l.getD 1 ' ') (l.getD 2 ' ') (l.getD 3 ' '))
        (d2 (l.getD 5 ' ') (l.getD 6 ' ')) (d2 (l.getD 8 ' ') (l.getD 9 ' '))
        (d2 (l.getD 11 ' ') (l.getD 12 ' ')) (d2 (l.getD 14 ' ') (l.getD 15 ' '))
        (d2 (l.getD 17 ' ') (l.getD 18 ' '))
        (if l.getD 19 ' ' = '-' then
          -(((60 * d2 (l.getD 20 ' ') (l.getD 21 ' ') + d2 (l.getD 22 ' ') (l.getD 23 ' ') : Nat)) : Int)
         else ((60 * d2 (l.getD 20 ' ') (l.getD 21 ' ') + d2 (l.getD 22 ' ') (l.getD 23 ' ') : Nat) : Int))
    else none
  else none

/-- Python `date[:-3] + date[-2:]` on a character list: drops the
antepenultimate character (for the wire format, the colon inside the
UTC offset). -/
def stripChars (l : List Char) : List Char :=
  l.take (l.length - 3) ++ l.drop (l.length - 2)

/-- `date[:-3] + date[-2:]` on strings, as in `Entry.__init__`. -/
def stripColon (s : String) : String := ⟨stripChars s.data⟩

/-- `strptime(date[:-3] + date[-2:], '%Y-%m-%dT%H:%M:%S%z')`. -/
def parseTS (s : String) : Option MDDateTime := parseTSChars s.data

/-- Denotation of an ISO-8601 wire timestamp: accepts the two canonical
offset spellings `±HH:MM` (25 characters, as sent by the service) and
`±HHMM` (24 characters). -/
def parseISOChars (l : List Char) : Option MDDateTime :=
  if l.length = 25 ∧ l.getD 22 ' ' = ':' then parseTSChars (stripChars l)
  else parseTSChars l

/-- String form of `parseISOChars`. -/
def parseISO (s : String) : Option MDDateTime := parseISOChars s.data

/-- Two-digit zero-padded decimal rendering. -/
def pad2 (n : Nat) : List Char := [dchar (n / 10 % 10), dchar (n % 10)]

/-- Four-digit zero-padded decimal rendering. -/
def pad4 (n : Nat) : List Char :=
  [dchar (n / 1000 % 10), dchar (n / 100 % 10), dchar (n / 10 % 10), dchar (n % 10)]

/-- Model of `strftime('%Y-%m-%dT%H:%M:%S%z')` on an aware timestamp:
zero-padded fields and the offset printed as a sign plus `HHMM` (the
CPython rendering of an aware datetime's `%z`). -/
def fmtTSChars (dt : MDDateTime) : List Char :=
  pad4 dt.year ++ '-' :: pad2 dt.month ++ '-' :: pad2 dt.day ++
  'T' :: pad2 dt.hour ++ ':' :: pad2 dt.minute ++ ':' :: pad2 dt.second ++
  (if dt.offMin < 0 then '-' else '+') ::
    (pad2 (dt.offMin.natAbs / 60) ++ pad2 (dt.offMin.natAbs % 60))

/-- The `logged_at` string written by `Entry.update`. -/
def fmtLoggedAt (dt : MDDateTime) : String := ⟨fmtTSChars dt⟩

/-- Days since 1970-01-01 of a proleptic Gregorian calendar date
(civil-from-days inverse, Hinnant's algorithm). -/
def daysFromCivil (y m d : Nat) : Int :=
  let y' : Int := if m ≤ 2 then (y : Int) - 1 else (y : Int)
  let era : Int := (if 0 ≤ y' then y' else y' - 399) / 400
  let yoe : Int := y' - era * 400
  let mp : Int := (((m : Int) + 9) % 12)
  let doy : Int := (153 * mp + 2) / 5 + (d : Int) - 1
  let doe : Int := yoe * 365 + yoe / 4 - yoe / 100 + doy
  era * 146097 + doe - 719468

/-- The instant a timestamp denotes: seconds since the epoch, i.e. the
naive clock reading minus the UTC offset. -/
def toInstant (dt : MDDateTime) : Int :=
  86400 * daysFromCivil dt.year dt.month dt.day +
    3600 * (dt.hour : Int) + 60 * (dt.minute : Int) + (dt.second : Int) -
    60 * dt.offMin

/-! ## Entity models (`User`, `Contact`, `Project`, `Entry`)

Each constructor takes the raw JSON record, keeps it, and extracts the
fields `__init__` reads.  A missing key (Python `KeyError`), a
non-string where Python calls a string method, or a failing `strptime`
makes construction fail (`none`). -/

/-- A raw JSON record: a Python dict from string keys to JSON values. -/
abbrev RawObj : Type := Dict String JVal

/-- Model of `md.User`: the raw record plus the extracted attributes.
`login` is the part of the email before the first `@`. -/
structure User where
  raw : RawObj
  user_id : JVal
  email : String
  login : String
  first_name : JVal
  last_name : JVal
deriving DecidableEq, Repr

/-- `email.split('@')[0]`: the prefix of the email before the first
`@` (the whole string when there is none). -/
def loginOf (email : String) : String :=
  ⟨email.data.takeWhile fun c => decide (c ≠ '@')⟩

/-- `User.__init__`: reads `id` and `email` (which must be a string for
`email.split('@')[0]`), derives `login`, then reads the names. -/
def mkUser (raw : RawObj) : Option User := do
  let id ← dlookup raw "id"
  let em ← dlookup raw "email"
  match em with
  | .jstr s => do
      let fn ← dlookup raw "first_name"
      let ln ← dlookup raw "last_name"
      some ⟨raw, id, s, loginOf s, fn, ln⟩
  | _ => none

/-- Model of `md.Contact`. -/
structure Contact where
  raw : RawObj
  contact_id : JVal
  name : JVal
  short_code : JVal
  default_rate_dollars : JVal
deriving DecidableEq, Repr

/-- `Contact.__init__`. -/
def mkContact (raw : RawObj) : Option Contact := do
  let id ← dlookup raw "id"
  let nm ← dlookup raw "name"
  let sc ← dlookup raw "short_code"
  let dr ← dlookup raw "default_rate_dollars"
  some ⟨raw, id, nm, sc, dr⟩

/-- Model of `md.Project`. -/
structure Project where
  raw : RawObj
  project_id : JVal
  contact_id : JVal
  name : JVal
  short_code : JVal
  description : JVal
  default_rate_dollars : JVal
deriving DecidableEq, Repr

/-- `Project.__init__`. -/
def mkProject (raw : RawObj) : Option Project := do
  let id ← dlookup raw "id"
  let ci ← dlookup raw "contact_id"
  let nm ← dlookup raw "name"
  let sc ← dlookup raw "short_code"
  let ds ← dlookup raw "description"
  let dr ← dlookup raw "default_rate_dollars"
  some ⟨raw, id, ci, nm, sc, ds, dr⟩

/-- Model of `md.Entry`: the original raw payload plus the in-memory
attributes.  All non-timestamp attributes hold arbitrary JSON values
(Python never type-checks them); the parsed `logged_at` is `date`. -/
structure Entry where
  raw : RawObj
  entry_id : JVal
  user_id : JVal
  contact_id : JVal
  project_id : JVal
  duration : JVal
  description : JVal
  timer_active : JVal
  date : MDDateTime
deriving DecidableEq, Repr

/-- `Entry.__init__`: extracts the seven attributes in source order,
then parses `logged_at` after the `date[:-3] + date[-2:]` slice. -/
def mkEntry (raw : RawObj) : Option Entry := do
  let id ← dlookup raw "id"
  let uid ← dlookup raw "user_id"
  let cid ← dlookup raw "contact_id"
  let pid ← dlookup raw "project_id"
  let dur ← dlookup raw "duration"
  let desc ← dlookup raw "description"
  let ta ← dlookup raw "timer_active"
  let la ← dlookup raw "logged_at"
  match la with
  | .jstr s =>
      (parseTS (stripColon s)).map fun dt =>
        { raw := raw, entry_id := id, user_id := uid, contact_id := cid,
          project_id := pid, duration := dur, description := desc,
          timer_active := ta, date := dt }
  | _ => none

/-- The five keys `Entry.update` overlays onto the copied raw payload. -/
def writableKeys : List String :=
  ["user_id", "contact_id", "project_id", "description", "logged_at"]

/-- The entry payload transmitted by `Entry.update`: a copy of the
original raw record with the five client-writable keys assigned from
the current in-memory attribute values (the wire body wraps this object
as `{"entry": body}`). -/
def updateBody (e : Entry) : RawObj :=
  setKey (setKey (setKey (setKey (setKey e.raw
    "user_id" e.user_id)
    "contact_id" e.contact_id)
    "project_id" e.project_id)
    "description" e.description)
    "logged_at" (.jstr (fmtLoggedAt e.date))

/-! ## Session bootstrap and catalog indexes -/

/-- `md.list2dict`: converts a list of objects to a dictionary indexed
by the given attribute (Python `dict(...)` built from a pair list:
later duplicate keys overwrite earlier ones). -/
def list2dict {α β : Type} [DecidableEq α] (lst : List β) (attr : β → α) : Dict α β :=
  lst.foldl (fun d i => setKey d (attr i) i) []

/-- Number of slots of a dictionary holding a given value. -/
def slotCount {α β : Type} [DecidableEq β] (d : Dict α β) (v : β) : Nat :=
  (d.filter fun p => decide (p.2 = v)).length

/-- The session catalog built by `MinuteDock.__init__`: the three
entity lists and the six lookup indexes. -/
structure Catalog where
  users : List User
  users_by_id : Dict JVal User
  users_by_login : Dict String User
  contacts : List Contact
  contacts_by_id : Dict JVal Contact
  contacts_by_code : Dict JVal Contact
  projects : List Project
  projects_by_id : Dict JVal Project
  projects_by_code : Dict JVal Project

/-- Session bootstrap from the three raw lists fetched from
`users.json`, `contacts.json`, `projects.json`: wraps each record in
its entity type and builds the six indexes with `list2dict`. -/
def mkCatalog (ru rc rp : List RawObj) : Option Catalog := do
  let us ← ru.mapM mkUser
  let cs ← rc.mapM mkContact
  let ps ← rp.mapM mkProject
  some
    { users := us
      users_by_id := list2dict us User.user_id
      users_by_login := list2dict us User.login
      contacts := cs
      contacts_by_id := list2dict cs Contact.contact_id
      contacts_by_code := list2dict cs Contact.short_code
      projects := ps
      projects_by_id := list2dict ps Project.project_id
      projects_by_code := list2dict ps Project.short_code }

/-! ## Search protocol (`MinuteDock.entries_search`) -/

/-- Which catalog index a failed natural-key resolution was against. -/
inductive KeyKind where
  | userKey : KeyKind
  | contactKey : KeyKind
  | projectKey : KeyKind
deriving DecidableEq, Repr

/-- Errors `entries_search` can raise: a `KeyError` (a Python
`LookupError`) from an index lookup during filter encoding, a raw entry
record that `Entry.__init__` rejects, or the fuel bound of the modelled
pagination loop running out (the reference loop has no such bound and
simply never returns). -/
inductive SearchErr where
  | lookupErr : KeyKind → JVal → SearchErr
  | badRecord : SearchErr
  | noTermination : SearchErr
deriving DecidableEq, Repr

/-- The arguments of `entries_search` (`None` meaning omitted). -/
structure SearchArgs where
  date_range : Option ((Nat × Nat × Nat) × (Nat × Nat × Nat))
  user_logins : Option (List String)
  contacts : Option (List JVal)
  projects : Option (List JVal)
deriving DecidableEq, Repr

/-- The query dictionary sent with each `entries.json` GET, apart from
`api_key` and the per-page `offset`. -/
structure SearchDict where
  users : String
  contacts : String
  projects : String
  fromTo : Option (String × String)
deriving DecidableEq, Repr

/-- `str(self.users_by_login[l].user_id)` for one login, as an
`Except`: a missing index slot is the `KeyError` Python raises. -/
def resolveUser (cat : Catalog) (l : String) : Except SearchErr String :=
  match dlookup cat.users_by_login l with
  | some u => .ok (jvalStr u.user_id)
  | none => .error (.lookupErr .userKey (.jstr l))

/-- `str(self.contacts_by_code[c].contact_id)` for one short code. -/
def resolveContact (cat : Catalog) (c : JVal) : Except SearchErr String :=
  match dlookup cat.contacts_by_code c with
  | some ct => .ok (jvalStr ct.contact_id)
  | none => .error (.lookupErr .contactKey c)

/-- `str(self.projects_by_code[p].project_id)` for one short code. -/
def resolveProject (cat : Catalog) (p : JVal) : Except SearchErr String :=
  match dlookup cat.projects_by_code p with
  | some pr => .ok (jvalStr pr.project_id)
  | none => .error (.lookupErr .projectKey p)

/-- `'%m/%d/%Y'` rendering of one end of the date range. -/
def fmtDate (d : Nat × Nat × Nat) : String :=
  ⟨pad2 d.2.1 ++ '/' :: pad2 d.2.2 ++ '/' :: pad4 d.1⟩

/-- One `if X is None: search_dict[..] = 'all' else: ','.join(...)`
block of `entries_search`: `"all"` for an omitted argument, otherwise
the comma-join of the resolved ids. -/
def encodeDim {γ : Type} (resolve : γ → Except SearchErr String)
    (arg : Option (List γ)) : Except SearchErr String :=
  match arg with
  | none => .ok "all"
  | some xs => (xs.mapM resolve).map (String.intercalate ",")

/-- The filter-encoding prefix of `entries_search` (lines 243-262):
each of `users`/`contacts`/`projects` is the literal `"all"` when the
argument is `None`, otherwise the comma-join of the ids resolved
through the by-natural-key index; the date range, when given, is
encoded as `MM/DD/YYYY`.  All of this happens before the first network
request of the pagination loop. -/
def encodeFilters (cat : Catalog) (a : SearchArgs) : Except SearchErr SearchDict := do
  let us ← encodeDim (resolveUser cat) a.user_logins
  let cs ← encodeDim (resolveContact cat) a.contacts
  let ps ← encodeDim (resolveProject cat) a.projects
  .ok
    { users := us
      contacts := cs
      projects := ps
      fromTo := a.date_range.map fun r => (fmtDate r.1, fmtDate r.2) }

/-- A transport for the paginated `entries.json` GET: given the query
dictionary and the current `offset` it returns the decoded page. -/
def Transport : Type := SearchDict → Nat → List RawObj

/-- The pagination loop of `entries_search` (lines 264-271), with the
offsets of the GET requests it issues logged in order.  The loop has no
bound in the source; `fuel` caps the model, and `none` means the bound
was hit before an empty page was seen. -/
def paginateLog (t : Transport) (q : SearchDict) : Nat → Nat → Option (List RawObj) × List Nat
  | _, 0 => (none, [])
  | off, fuel + 1 =>
      let page := t q off
      if page.length = 0 then (some [], [off])
      else
        let rest := paginateLog t q (off + page.length) fuel
        (rest.1.map (fun es => page ++ es), off :: rest.2)

/-- `entries_search`, returning the result (or the raised error) plus
the offsets of the `entries.json` GET requests issued: filter encoding,
pagination, conversion of the raw records to `Entry` objects, then the
local post-filter keeping only project-less entries when `projects` was
passed as the empty list. -/
def entriesSearchLog (cat : Catalog) (t : Transport) (a : SearchArgs) (fuel : Nat) :
    Except SearchErr (List Entry) × List Nat :=
  match encodeFilters cat a with
  | .error e => (.error e, [])
  | .ok sd =>
      match paginateLog t sd 0 fuel with
      | (none, log) => (.error .noTermination, log)
      | (some raws, log) =>
          match raws.mapM mkEntry with
          | none => (.error .badRecord, log)
          | some es =>
              (.ok (if a.projects = some [] then
                      es.filter (fun e => decide (e.project_id = JVal.jnull))
                    else es), log)

/-- Total number of records in a list of pages. -/
def sumLen {α : Type} (ps : List (List α)) : Nat := (ps.map List.length).sum

/-! ## Concrete example data used by witnesses and counterexamples -/

/-- A concrete raw entry record whose `timer_active` is `true`. -/
def rawTimerEx : RawObj :=
  [("id", .jnum 7), ("user_id", .jnum 1), ("contact_id", .jnum 2),
   ("project_id", .jnull), ("duration", .jnum 3600), ("description", .jstr "work"),
   ("timer_active", .jbool true), ("logged_at", .jstr "2012-07-01T10:00:00+10:00")]

/-- The entry `mkEntry` builds from `rawTimerEx`. -/
def entryTimerEx : Entry :=
  { raw := rawTimerEx, entry_id := .jnum 7, user_id := .jnum 1, contact_id := .jnum 2,
    project_id := .jnull, duration := .jnum 3600, description := .jstr "work",
    timer_active := .jbool true, date := ⟨2012, 7, 1, 10, 0, 0, 600⟩ }

/-- A query dictionary with no filters, for exercising the pagination
loop on its own. -/
def qAll : SearchDict := { users := "all", contacts := "all", projects := "all", fromTo := none }

/-- A 50-record page. -/
def pageA : List RawObj := List.replicate 50 [("id", JVal.jnum 1)]

/-- A second 50-record page. -/
def pageB : List RawObj := List.replicate 50 [("id", JVal.jnum 2)]

/-- A third 50-record page. -/
def pageC : List RawObj := List.replicate 50 [("id", JVal.jnum 3)]

/-- The page sequence of sizes `[50, 50, 0]`. -/
def twoPages : List (List RawObj) := [pageA, pageB]

/-- The page sequence of sizes `[50, 50, 50, 0]`. -/
def threePages : List (List RawObj) := [pageA, pageB, pageC]

/-- A transport serving `pageA` at offset `0`, `pageB` at `50`, nothing
beyond. -/
def twoPageTransport : Transport := fun _ off =>
  if off = 0 then pageA else if off = 50 then pageB else []

/-- A transport serving three 50-record pages then nothing. -/
def threePageTransport : Transport := fun _ off =>
  if off = 0 then pageA else if off = 50 then pageB else if off = 100 then pageC else []

/-- A misbehaving transport that returns the same non-empty page at
every offset, never advancing. -/
def onePageTransport : Transport := fun _ _ => [[("id", JVal.jnum 1)]]

/-- A catalog with no users, contacts or projects. -/
def catEmpty : Catalog :=
  { users := [], users_by_id := [], users_by_login := [],
    contacts := [], contacts_by_id := [], contacts_by_code := [],
    projects := [], projects_by_id := [], projects_by_code := [] }

/-- Search arguments with an unresolvable user login. -/
def argsUnknownUser : SearchArgs :=
  { date_range := none, user_logins := some ["unknownuser"],
    contacts := none, projects := none }

/-- Search arguments passing `projects=[]` (the "no project" sentinel). -/
def argsEmptyProjects : SearchArgs :=
  { date_range := none, user_logins := none, contacts := none, projects := some [] }

/-- A raw entry record with no project assigned. -/
def rawEntryNoProj : RawObj :=
  [("id", .jnum 1), ("user_id", .jnum 1), ("contact_id", .jnum 2),
   ("project_id", .jnull), ("duration", .jnum 60), ("description", .jstr "a"),
   ("timer_active", .jbool false), ("logged_at", .jstr "2012-07-02T09:00:00+10:00")]

/-- A raw entry record with a project assigned. -/
def rawEntryProj : RawObj :=
  [("id", .jnum 2), ("user_id", .jnum 1), ("contact_id", .jnum 2),
   ("project_id", .jnum 5), ("duration", .jnum 60), ("description", .jstr "b"),
   ("timer_active", .jbool false), ("logged_at", .jstr "2012-07-02T11:00:00+10:00")]

/-- A transport serving one page holding the two entry records above. -/
def entryPageTransport : Transport := fun _ off =>
  if off = 0 then [rawEntryNoProj, rawEntryProj] else []

/-- The entry built from `rawEntryNoProj`. -/
def entryNoProj : Entry :=
  { raw := rawEntryNoProj, entry_id := .jnum 1, user_id := .jnum 1, contact_id := .jnum 2,
    project_id := .jnull, duration := .jnum 60, description := .jstr "a",
    timer_active := .jbool false, date := ⟨2012, 7, 2, 9, 0, 0, 600⟩ }

/-- A raw user record with login `alice`. -/
def rawUserA : RawObj :=
  [("id", .jnum 1), ("email", .jstr "alice@example.com"),
   ("first_name", .jstr "Alice"), ("last_name", .jstr "A")]

/-- A raw user record with login `bob`. -/
def rawUserB : RawObj :=
  [("id", .jnum 2), ("email", .jstr "bob@example.com"),
   ("first_name", .jstr "Bob"), ("last_name", .jstr "B")]

/-- A second raw user record whose derived login collides with
`rawUserA` (different email domain, same local part). -/
def rawUserA2 : RawObj :=
  [("id", .jnum 9), ("email", .jstr "alice@other.com"),
   ("first_name", .jstr "Alice2"), ("last_name", .jstr "A2")]

/-- A raw contact record. -/
def rawContactC : RawObj :=
  [("id", .jnum 3), ("name", .jstr "C"), ("short_code", .jstr "CC"),
   ("default_rate_dollars", .jnum 100)]

/-- A raw project record. -/
def rawProjectP : RawObj :=
  [("id", .jnum 4), ("contact_id", .jnum 3), ("name", .jstr "P"),
   ("short_code", .jstr "PP"), ("description", .jstr "d"),
   ("default_rate_dollars", .jnum 100)]

/-! ## Theorems -/

theorem dlookup_setKey_self {α β : Type} [DecidableEq α]
    (d : Dict α β) (k : α) (v : β) : dlookup (setKey d k v) k = some v := by
  induction d with
  | nil => simp [setKey, dlookup]
  | cons p rest ih =>
      obtain ⟨k', v'⟩ := p
      by_cases h : k' = k
      · simp [setKey, h, dlookup]
      · simp [setKey, h, dlookup, ih]

theorem dlookup_setKey_ne {α β : Type} [DecidableEq α]
    (d : Dict α β) (k k' : α) (v : β) (h : k' ≠ k) :
    dlookup (setKey d k v) k' = dlookup d k' := by
  induction d with
  | nil => simp [setKey, dlookup, Ne.symm h]
  | cons p rest ih =>
      obtain ⟨k0, v0⟩ := p
      by_cases h0 : k0 = k
      · subst h0
        simp [setKey, dlookup, Ne.symm h]
      · simp only [setKey, if_neg h0, dlookup]
        by_cases h1 : k0 = k'
        · simp [h1]
        · simp [h1, ih]

theorem dkeys_setKey_of_mem {α β : Type} [DecidableEq α]
    (d : Dict α β) (k : α) (v : β) (h : dlookup d k ≠ none) :
    dkeys (setKey d k v) = dkeys d := by
  induction d with
  | nil => simp [dlookup] at h
  | cons p rest ih =>
      obtain ⟨k0, v0⟩ := p
      by_cases h0 : k0 = k
      · subst h0
        simp [setKey, dkeys]
      · simp [dlookup, h0] at h
        simp [setKey, h0, dkeys] at ih ⊢
        exact ih h

theorem dlookup_isSome_of_eq_some {α β : Type} [DecidableEq α]
    {d : Dict α β} {k : α} {v : β} (h : dlookup d k = some v) :
    dlookup d k ≠ none := by
  rw [h]; simp

theorem parseTSChars_length {l : List Char} {dt : MDDateTime}
    (h : parseTSChars l = some dt) : l.length = 24 := by
  by_cases h24 : l.length = 24
  · exact h24
  · simp [parseTSChars, h24] at h

theorem stripChars_length_of_24 {l : List Char} (h : l.length = 24) :
    (stripChars l).length = 23 := by
  simp [stripChars, h]

theorem isDigit_dchar (n : Nat) : (dchar n).isDigit = true := by
  unfold dchar
  split <;> decide

theorem dval_dchar (n : Nat) (h : n ≤ 9) : dval (dchar n) = n := by
  interval_cases n <;> rfl

theorem d2_pad (n : Nat) (h : n ≤ 99) :
    d2 (dchar (n / 10 % 10)) (dchar (n % 10)) = n := by
  have h1 := dval_dchar (n / 10 % 10) (by omega)
  have h2 := dval_dchar (n % 10) (by omega)
  unfold d2
  rw [h1, h2]
  omega

theorem d4_pad (n : Nat) (h : n ≤ 9999) :
    d4 (dchar (n / 1000 % 10)) (dchar (n / 100 % 10)) (dchar (n / 10 % 10))
      (dchar (n % 10)) = n := by
  have h1 := dval_dchar (n / 1000 % 10) (by omega)
  have h2 := dval_dchar (n / 100 % 10) (by omega)
  have h3 := dval_dchar (n / 10 % 10) (by omega)
  have h4 := dval_dchar (n % 10) (by omega)
  unfold d4
  rw [h1, h2, h3, h4]
  omega

theorem off_roundtrip (z : Int) :
    (if (if z < 0 then '-' else '+') = '-'
     then -(((60 * (z.natAbs / 60) + z.natAbs % 60 : Nat)) : Int)
     else ((60 * (z.natAbs / 60) + z.natAbs % 60 : Nat) : Int)) = z := by
  have hm : 60 * (z.natAbs / 60) + z.natAbs % 60 = z.natAbs := Nat.div_add_mod _ 60
  rw [hm]
  by_cases hz : z < 0
  · rw [if_pos hz, if_pos rfl]
    omega
  · rw [if_neg hz, if_neg (by decide : ¬ ('+' : Char) = '-')]
    omega

theorem daysInMonth_le (y m : Nat) : daysInMonth y m ≤ 31 := by
  unfold daysInMonth
  split
  · split <;> omega
  · split <;> omega

theorem mkValidDT_self (dt : MDDateTime) (h : ValidDT dt) :
    mkValidDT dt.year dt.month dt.day dt.hour dt.minute dt.second dt.offMin = some dt := by
  unfold mkValidDT
  rw [if_pos h]

theorem parseTS_fmt (dt : MDDateTime) (h : ValidDT dt) :
    parseTSChars (fmtTSChars dt) = some dt := by
  obtain ⟨h1, h2, h3, h4, h5, h6, h7, h8, h9, h10⟩ := h
  have hsign : (if dt.offMin < 0 then '-' else '+') = '+' ∨
      (if dt.offMin < 0 then '-' else '+') = '-' := by
    by_cases hz : dt.offMin < 0
    · exact Or.inr (if_pos hz)
    · exact Or.inl (if_neg hz)
  have hlen : (fmtTSChars dt).length = 24 := rfl
  unfold parseTSChars
  rw [if_pos hlen]
  simp only [show (fmtTSChars dt).getD 0 ' ' = dchar (dt.year / 1000 % 10) from rfl,
    show (fmtTSChars dt).getD 1 ' ' = dchar (dt.year / 100 % 10) from rfl,
    show (fmtTSChars dt).getD 2 ' ' = dchar (dt.year / 10 % 10) from rfl,
    show (fmtTSChars dt).getD 3 ' ' = dchar (dt.year % 10) from rfl,
    show (fmtTSChars dt).getD 4 ' ' = '-' from rfl,
    show (fmtTSChars dt).getD 5 ' ' = dchar (dt.month / 10 % 10) from rfl,
    show (fmtTSChars dt).getD 6 ' ' = dchar (dt.month % 10) from rfl,
    show (fmtTSChars dt).getD 7 ' ' = '-' from rfl,
    show (fmtTSChars dt).getD 8 ' ' = dchar (dt.day / 10 % 10) from rfl,
    show (fmtTSChars dt).getD 9 ' ' = dchar (dt.day % 10) from rfl,
    show (fmtTSChars dt).getD 10 ' ' = 'T' from rfl,
    show (fmtTSChars dt).getD 11 ' ' = dchar (dt.hour / 10 % 10) from rfl,
    show (fmtTSChars dt).getD 12 ' ' = dchar (dt.hour % 10) from rfl,
    show (fmtTSChars dt).getD 13 ' ' = ':' from rfl,
    show (fmtTSChars dt).getD 14 ' ' = dchar (dt.minute / 10 % 10) from rfl,
    show (fmtTSChars dt).getD 15 ' ' = dchar (dt.minute % 10) from rfl,
    show (fmtTSChars dt).getD 16 ' ' = ':' from rfl,
    show (fmtTSChars dt).getD 17 ' ' = dchar (dt.second / 10 % 10) from rfl,
    show (fmtTSChars dt).getD 18 ' ' = dchar (dt.second % 10) from rfl,
    show (fmtTSChars dt).getD 19 ' ' = (if dt.offMin < 0 then '-' else '+') from rfl,
    show (fmtTSChars dt).getD 20 ' ' = dchar (dt.offMin.natAbs / 60 / 10 % 10) from rfl,
    show (fmtTSChars dt).getD 21 ' ' = dchar (dt.offMin.natAbs / 60 % 10) from rfl,
    show (fmtTSChars dt).getD 22 ' ' = dchar (dt.offMin.natAbs % 60 / 10 % 10) from rfl,
    show (fmtTSChars dt).getD 23 ' ' = dchar (dt.offMin.natAbs % 60 % 10) from rfl]
  rw [if_pos ⟨trivial, trivial, trivial, trivial, trivial, hsign,
    isDigit_dchar _, isDigit_dchar _, isDigit_dchar _, isDigit_dchar _,
    isDigit_dchar _, isDigit_dchar _, isDigit_dchar _, isDigit_dchar _,
    isDigit_dchar _, isDigit_dchar _, isDigit_dchar _, isDigit_dchar _,
    isDigit_dchar _, isDigit_dchar _, isDigit_dchar _, isDigit_dchar _,
    isDigit_dchar _, isDigit_dchar _⟩]
  have hday : dt.day ≤ 99 := le_trans h6 (le_trans (daysInMonth_le _ _) (by omega))
  rw [d4_pad dt.year h2, d2_pad dt.month (by omega), d2_pad dt.day hday,
    d2_pad dt.hour (by omega), d2_pad dt.minute (by omega), d2_pad dt.second (by omega),
    d2_pad (dt.offMin.natAbs / 60) (by omega), d2_pad (dt.offMin.natAbs % 60) (by omega),
    off_roundtrip dt.offMin]
  exact mkValidDT_self dt ⟨h1, h2, h3, h4, h5, h6, h7, h8, h9, h10⟩

theorem parseISO_strip {l : List Char} {dt0 dt : MDDateTime}
    (h0 : parseISOChars l = some dt0)
    (h1 : parseTSChars (stripChars l) = some dt) : dt = dt0 := by
  unfold parseISOChars at h0
  by_cases hc : l.length = 25 ∧ l.getD 22 ' ' = ':'
  · rw [if_pos hc] at h0
    rw [h0] at h1
    exact (Option.some_inj.mp h1).symm
  · rw [if_neg hc] at h0
    have hl : l.length = 24 := parseTSChars_length h0
    have hs : (stripChars l).length = 23 := stripChars_length_of_24 hl
    have : (stripChars l).length = 24 := parseTSChars_length h1
    omega

/-! ## Lemmas about the update payload -/

theorem updateBody_lookup_frame (e : Entry) (k : String) (hk : k ∉ writableKeys) :
    dlookup (updateBody e) k = dlookup e.raw k := by
  simp only [writableKeys, List.mem_cons, List.not_mem_nil, or_false, not_or] at hk
  obtain ⟨h1, h2, h3, h4, h5⟩ := hk
  unfold updateBody
  rw [dlookup_setKey_ne _ _ _ _ h5, dlookup_setKey_ne _ _ _ _ h4,
    dlookup_setKey_ne _ _ _ _ h3, dlookup_setKey_ne _ _ _ _ h2,
    dlookup_setKey_ne _ _ _ _ h1]

theorem updateBody_lookup_user_id (e : Entry) :
    dlookup (updateBody e) "user_id" = some e.user_id := by
  unfold updateBody
  rw [dlookup_setKey_ne _ _ _ _ (by decide), dlookup_setKey_ne _ _ _ _ (by decide),
    dlookup_setKey_ne _ _ _ _ (by decide), dlookup_setKey_ne _ _ _ _ (by decide),
    dlookup_setKey_self]

theorem updateBody_lookup_contact_id (e : Entry) :
    dlookup (updateBody e) "contact_id" = some e.contact_id := by
  unfold updateBody
  rw [dlookup_setKey_ne _ _ _ _ (by decide), dlookup_setKey_ne _ _ _ _ (by decide),
    dlookup_setKey_ne _ _ _ _ (by decide), dlookup_setKey_self]

theorem updateBody_lookup_project_id (e : Entry) :
    dlookup (updateBody e) "project_id" = some e.project_id := by
  unfold updateBody
  rw [dlookup_setKey_ne _ _ _ _ (by decide), dlookup_setKey_ne _ _ _ _ (by decide),
    dlookup_setKey_self]

theorem updateBody_lookup_description (e : Entry) :
    dlookup (updateBody e) "description" = some e.description := by
  unfold updateBody
  rw [dlookup_setKey_ne _ _ _ _ (by decide), dlookup_setKey_self]

theorem updateBody_lookup_logged_at (e : Entry) :
    dlookup (updateBody e) "logged_at" = some (.jstr (fmtLoggedAt e.date)) := by
  unfold updateBody
  rw [dlookup_setKey_self]

/-- C2: the payload transmitted by `update()` keeps every key of the
original raw record at its original value except exactly the five
client-writable keys, which take the entry's current in-memory values;
in particular the transmitted `timer_active` equals the original raw
value even if never touched. -/
theorem update_transmits_overlay (e : Entry) :
    (∀ k : String, k ∉ writableKeys → dlookup (updateBody e) k = dlookup e.raw k) ∧
    dlookup (updateBody e) "user_id" = some e.user_id ∧
    dlookup (updateBody e) "contact_id" = some e.contact_id ∧
    dlookup (updateBody e) "project_id" = some e.project_id ∧
    dlookup (updateBody e) "description" = some e.description ∧
    dlookup (updateBody e) "logged_at" = some (.jstr (fmtLoggedAt e.date)) ∧
    dlookup (updateBody e) "timer_active" = dlookup e.raw "timer_active" :=
  ⟨fun k hk => updateBody_lookup_frame e k hk,
    updateBody_lookup_user_id e, updateBody_lookup_contact_id e,
    updateBody_lookup_project_id e, updateBody_lookup_description e,
    updateBody_lookup_logged_at e,
    updateBody_lookup_frame e "timer_active" (by decide)⟩

/-- C2 witness: the overlay theorem instantiated at the concrete entry
`entryTimerEx`, with the frame part applied at the key `duration`. -/
theorem update_transmits_overlay_witness :
    dlookup (updateBody entryTimerEx) "duration" = dlookup entryTimerEx.raw "duration" ∧
    dlookup (updateBody entryTimerEx) "timer_active" =
      dlookup entryTimerEx.raw "timer_active" :=
  ⟨(update_transmits_overlay entryTimerEx).1 "duration" (by decide),
   (update_transmits_overlay entryTimerEx).2.2.2.2.2.2⟩

/-- C10: `update()` never overlays `duration`: mutating the in-memory
`duration` attribute does not change the transmitted payload, whose
`duration` always equals the original raw value. -/
theorem update_discards_duration (e : Entry) (v : JVal) :
    updateBody { e with duration := v } = updateBody e ∧
    dlookup (updateBody e) "duration" = dlookup e.raw "duration" :=
  ⟨rfl, updateBody_lookup_frame e "duration" (by decide)⟩

/-- C8 amended: `timer_active` is excluded from the overlay only — the
transmitted payload's `timer_active` is the original raw value,
unaffected by the in-memory attribute. -/
theorem update_timer_active_from_raw (e : Entry) (v : JVal) :
    updateBody { e with timer_active := v } = updateBody e ∧
    dlookup (updateBody e) "timer_active" = dlookup e.raw "timer_active" :=
  ⟨rfl, updateBody_lookup_frame e "timer_active" (by decide)⟩

/-- C8 counterexample: for the entry built from `rawTimerEx`, the
payload transmitted by `update()` does contain `timer_active` (with the
original raw value `true`), so `timer_active` is sent to the server. -/
theorem update_sends_timer_active :
    ∃ e : Entry, mkEntry rawTimerEx = some e ∧
      dlookup (updateBody e) "timer_active" = some (.jbool true) ∧
      dlookup (updateBody e) "timer_active" ≠ none := by
  refine ⟨_, rfl, by decide, by decide⟩

theorem mkValidDT_valid {y mo d h mi s : Nat} {off : Int} {dt : MDDateTime}
    (hm : mkValidDT y mo d h mi s off = some dt) : ValidDT dt := by
  unfold mkValidDT at hm
  by_cases hv : ValidDT ⟨y, mo, d, h, mi, s, off⟩
  · rw [if_pos hv] at hm
    exact (Option.some_inj.mp hm) ▸ hv
  · rw [if_neg hv] at hm
    exact absurd hm (by simp)

theorem parseTSChars_valid {l : List Char} {dt : MDDateTime}
    (hp : parseTSChars l = some dt) : ValidDT dt := by
  unfold parseTSChars at hp
  split at hp
  · split at hp
    · exact mkValidDT_valid hp
    · exact absurd hp (by simp)
  · exact absurd hp (by simp)

theorem updateBody_dkeys (e : Entry)
    (hu : dlookup e.raw "user_id" ≠ none) (hc : dlookup e.raw "contact_id" ≠ none)
    (hp : dlookup e.raw "project_id" ≠ none) (hd : dlookup e.raw "description" ≠ none)
    (hl : dlookup e.raw "logged_at" ≠ none) :
    dkeys (updateBody e) = dkeys e.raw := by
  have l1 : dlookup (setKey e.raw "user_id" e.user_id) "contact_id" =
      dlookup e.raw "contact_id" := dlookup_setKey_ne _ _ _ _ (by decide)
  have l2 : dlookup (setKey (setKey e.raw "user_id" e.user_id)
      "contact_id" e.contact_id) "project_id" = dlookup e.raw "project_id" := by
    rw [dlookup_setKey_ne _ _ _ _ (by decide), dlookup_setKey_ne _ _ _ _ (by decide)]
  have l3 : dlookup (setKey (setKey (setKey e.raw "user_id" e.user_id)
      "contact_id" e.contact_id) "project_id" e.project_id) "description" =
      dlookup e.raw "description" := by
    rw [dlookup_setKey_ne _ _ _ _ (by decide), dlookup_setKey_ne _ _ _ _ (by decide),
      dlookup_setKey_ne _ _ _ _ (by decide)]
  have l4 : dlookup (setKey (setKey (setKey (setKey e.raw "user_id" e.user_id)
      "contact_id" e.contact_id) "project_id" e.project_id)
      "description" e.description) "logged_at" = dlookup e.raw "logged_at" := by
    rw [dlookup_setKey_ne _ _ _ _ (by decide), dlookup_setKey_ne _ _ _ _ (by decide),
      dlookup_setKey_ne _ _ _ _ (by decide), dlookup_setKey_ne _ _ _ _ (by decide)]
  unfold updateBody
  rw [dkeys_setKey_of_mem _ _ _ (l4 ▸ hl), dkeys_setKey_of_mem _ _ _ (l3 ▸ hd),
    dkeys_setKey_of_mem _ _ _ (l2 ▸ hp), dkeys_setKey_of_mem _ _ _ (l1 ▸ hc),
    dkeys_setKey_of_mem _ _ _ hu]

/-- C1: for an entry freshly constructed from a raw record,
`update()` without mutation transmits a payload with exactly the
original keys, every value other than `logged_at` unchanged, and
`logged_at` re-encoded in the 24-character `YYYY-MM-DDTHH:MM:SS±HHMM`
format denoting the same instant as the original wire timestamp. -/
theorem entry_update_roundtrip (raw : RawObj) (e : Entry)
    (h : mkEntry raw = some e) :
    dkeys (updateBody e) = dkeys raw ∧
    (∀ k : String, k ≠ "logged_at" → dlookup (updateBody e) k = dlookup raw k) ∧
    dlookup (updateBody e) "logged_at" = some (.jstr (fmtLoggedAt e.date)) ∧
    parseTS (fmtLoggedAt e.date) = some e.date ∧
    (∀ s : String, dlookup raw "logged_at" = some (.jstr s) →
      ∀ dt0 : MDDateTime, parseISO s = some dt0 → toInstant e.date = toInstant dt0) := by
  simp only [mkEntry, bind, Option.bind_eq_some] at h
  obtain ⟨id, hid, uid, huid, cid, hcid, pid, hpid, dur, hdur, desc, hdesc,
    ta, hta, la, hla, h⟩ := h
  cases la with
  | jnull => simp at h
  | jbool b => simp at h
  | jnum n => simp at h
  | jstr s0 =>
  simp only [Option.map_eq_some'] at h
  obtain ⟨dt, hdt, he⟩ := h
  subst he
  refine ⟨?_, ?_, updateBody_lookup_logged_at _, ?_, ?_⟩
  · exact updateBody_dkeys _ (dlookup_isSome_of_eq_some huid)
      (dlookup_isSome_of_eq_some hcid) (dlookup_isSome_of_eq_some hpid)
      (dlookup_isSome_of_eq_some hdesc) (dlookup_isSome_of_eq_some hla)
  · intro k hk
    by_cases h1 : k = "user_id"
    · subst h1; rw [updateBody_lookup_user_id]; exact huid.symm
    by_cases h2 : k = "contact_id"
    · subst h2; rw [updateBody_lookup_contact_id]; exact hcid.symm
    by_cases h3 : k = "project_id"
    · subst h3; rw [updateBody_lookup_project_id]; exact hpid.symm
    by_cases h4 : k = "description"
    · subst h4; rw [updateBody_lookup_description]; exact hdesc.symm
    exact updateBody_lookup_frame _ k (by
      simp only [writableKeys, List.mem_cons, List.not_mem_nil, or_false, not_or]
      exact ⟨h1, h2, h3, h4, hk⟩)
  · exact parseTS_fmt dt (parseTSChars_valid hdt)
  · intro s hs dt0 hiso
    rw [hla] at hs
    have h5 := Option.some_inj.mp hs
    injection h5 with h6
    subst h6
    have h7 : dt = dt0 := parseISO_strip hiso hdt
    rw [h7]

/-- C1 witness: the round-trip theorem applied to the concrete record
`rawTimerEx`. -/
theorem entry_update_roundtrip_witness :
    dkeys (updateBody entryTimerEx) = dkeys rawTimerEx ∧
    dlookup (updateBody entryTimerEx) "duration" = dlookup rawTimerEx "duration" ∧
    toInstant entryTimerEx.date = toInstant ⟨2012, 7, 1, 10, 0, 0, 600⟩ :=
  ⟨(entry_update_roundtrip rawTimerEx entryTimerEx rfl).1,
   (entry_update_roundtrip rawTimerEx entryTimerEx rfl).2.1 "duration" (by decide),
   (entry_update_roundtrip rawTimerEx entryTimerEx rfl).2.2.2.2
     "2012-07-01T10:00:00+10:00" (by decide) ⟨2012, 7, 1, 10, 0, 0, 600⟩ (by decide)⟩

/-! ## Pagination -/

theorem paginateLog_succ (t : Transport) (q : SearchDict) (off fuel : Nat) :
    paginateLog t q off (fuel + 1) =
      (if (t q off).length = 0 then (some [], [off])
       else ((paginateLog t q (off + (t q off).length) fuel).1.map (fun es => t q off ++ es),
             off :: (paginateLog t q (off + (t q off).length) fuel).2)) := rfl

theorem paginate_pages_aux (pages : List (List RawObj)) (t : Transport) (q : SearchDict) :
    ∀ off : Nat,
    (∀ p ∈ pages, p ≠ []) →
    (∀ i (h : i < pages.length), t q (off + sumLen (pages.take i)) = pages.get ⟨i, h⟩) →
    t q (off + sumLen pages) = [] →
    paginateLog t q off (pages.length + 1) =
      (some pages.flatten,
       (List.range (pages.length + 1)).map fun i => off + sumLen (pages.take i)) := by
  induction pages with
  | nil =>
      intro off hne hpg hend
      simp only [sumLen, List.map_nil, List.sum_nil, Nat.add_zero] at hend
      simp [paginateLog, hend, sumLen]
  | cons p ps ih =>
      intro off hne hpg hend
      have hp0 : t q off = p := by
        have h0 := hpg 0 (by simp)
        simpa [sumLen] using h0
      have hplen : ¬ p.length = 0 := by
        intro hz
        exact hne p (by simp) (List.length_eq_zero.mp hz)
      have hrec := ih (off + p.length)
        (fun p' hp' => hne p' (List.mem_cons_of_mem _ hp'))
        (fun i h => by
          have h1 := hpg (i + 1) (by simpa using Nat.succ_lt_succ h)
          simpa [sumLen, Nat.add_assoc] using h1)
        (by
          have h2 : off + p.length + sumLen ps = off + sumLen (p :: ps) := by
            simp [sumLen, Nat.add_assoc]
          rw [h2]; exact hend)
      show paginateLog t q off (ps.length + 1 + 1) = _
      rw [paginateLog_succ, hp0, if_neg hplen, hrec]
      simp [sumLen, List.range_succ_eq_map, List.map_map, Nat.add_assoc,
        Function.comp, List.take_succ_cons]

/-- C5: the pagination loop of `entries_search` issues GETs at offsets
`0, |p0|, |p0|+|p1|, ...`, stops at the first empty page, and returns
the concatenation of the pages in order; page sequences of sizes
`[50, 50, 0]` and `[50, 50, 50, 0]` thus yield exactly `100` and `150`
records (see the witness). -/
theorem entries_search_pagination (t : Transport) (q : SearchDict)
    (pages : List (List RawObj))
    (hne : ∀ p ∈ pages, p ≠ [])
    (hpg : ∀ i (h : i < pages.length), t q (sumLen (pages.take i)) = pages.get ⟨i, h⟩)
    (hend : t q (sumLen pages) = []) :
    paginateLog t q 0 (pages.length + 1) =
      (some pages.flatten,
       (List.range (pages.length + 1)).map fun i => sumLen (pages.take i)) ∧
    pages.flatten.length = sumLen pages := by
  constructor
  · have h := paginate_pages_aux pages t q 0 hne
      (fun i hi => by simpa using hpg i hi) (by simpa using hend)
    simpa using h
  · simp [sumLen, List.length_flatten]

/-- C5 witness: concrete transports serving pages of sizes
`[50, 50, 0]` and `[50, 50, 50, 0]` yield exactly 100 and 150 records,
with GETs issued at offsets `0, 50, 100` (resp. `0, 50, 100, 150`). -/
theorem entries_search_pagination_witness :
    paginateLog twoPageTransport qAll 0 (twoPages.length + 1) =
      (some twoPages.flatten,
       (List.range (twoPages.length + 1)).map fun i => sumLen (twoPages.take i)) ∧
    twoPages.flatten.length = 100 ∧
    paginateLog threePageTransport qAll 0 (threePages.length + 1) =
      (some threePages.flatten,
       (List.range (threePages.length + 1)).map fun i => sumLen (threePages.take i)) ∧
    threePages.flatten.length = 150 := by
  have h2 := entries_search_pagination twoPageTransport qAll twoPages
    (by decide) (by decide) (by decide)
  have h3 := entries_search_pagination threePageTransport qAll threePages
    (by decide) (by decide) (by decide)
  refine ⟨h2.1, ?_, h3.1, ?_⟩
  · rw [h2.2]; decide
  · rw [h3.2]; decide

/-- C6: the pagination loop has no termination guard — against a
transport that returns the same non-empty page at every offset, no
amount of fuel makes the loop of `entries_search` reach an empty page,
i.e. the source loop never returns. -/
theorem pagination_no_termination_guard :
    (∀ fuel off : Nat, (paginateLog onePageTransport qAll off fuel).1 = none) ∧
    ¬ ∃ fuel : Nat, ((paginateLog onePageTransport qAll 0 fuel).1).isSome = true := by
  have key : ∀ fuel off : Nat, (paginateLog onePageTransport qAll off fuel).1 = none := by
    intro fuel
    induction fuel with
    | zero => intro off; rfl
    | succ n ih =>
        intro off
        simp only [paginateLog]
        rw [if_neg (by simp [onePageTransport] : ¬ (onePageTransport qAll off).length = 0)]
        simp [ih]
  refine ⟨key, ?_⟩
  rintro ⟨fuel, hf⟩
  rw [key fuel 0] at hf
  simp at hf

/-! ## Filter encoding -/

theorem mapM_ok_mem_resolves {γ : Type} (f : γ → Except SearchErr String)
    (xs : List γ) (ids : List String) (h : xs.mapM f = .ok ids) :
    ∀ x ∈ xs, ∃ s, f x = .ok s := by
  induction xs generalizing ids with
  | nil => intro x hx; cases hx
  | cons a as ih =>
      rw [List.mapM_cons] at h
      cases hfa : f a with
      | error e =>
          rw [hfa] at h
          exact absurd h (by intro hc; cases hc)
      | ok b =>
          rw [hfa] at h
          cases hm : as.mapM f with
          | error e =>
              rw [hm] at h
              exact absurd h (by intro hc; cases hc)
          | ok bs =>
              intro x hx
              rcases List.mem_cons.mp hx with rfl | hx'
              · exact ⟨b, hfa⟩
              · exact ih bs hm x hx'

theorem mapM_ok_outputs {γ : Type} (f : γ → Except SearchErr String)
    (xs : List γ) (ids : List String) (h : xs.mapM f = .ok ids) :
    ∀ s ∈ ids, ∃ x, x ∈ xs ∧ f x = .ok s := by
  induction xs generalizing ids with
  | nil =>
      intro s hs
      have h2 : (Except.ok ([] : List String) : Except SearchErr (List String)) = .ok ids := h
      injection h2 with h3
      rw [← h3] at hs
      cases hs
  | cons a as ih =>
      rw [List.mapM_cons] at h
      cases hfa : f a with
      | error e =>
          rw [hfa] at h
          exact absurd h (by intro hc; cases hc)
      | ok b =>
          rw [hfa] at h
          cases hm : as.mapM f with
          | error e =>
              rw [hm] at h
              exact absurd h (by intro hc; cases hc)
          | ok bs =>
              rw [hm] at h
              have h2 : (Except.ok (b :: bs) : Except SearchErr (List String)) = .ok ids := h
              injection h2 with h3
              intro s hs
              rw [← h3] at hs
              rcases List.mem_cons.mp hs with rfl | hs'
              · exact ⟨a, by simp, hfa⟩
              · obtain ⟨x, hx, hfx⟩ := ih bs hm s hs'
                exact ⟨x, List.mem_cons_of_mem _ hx, hfx⟩

theorem mapM_error_shape {γ : Type} (f : γ → Except SearchErr String)
    (P : SearchErr → Prop) (hP : ∀ x e, f x = .error e → P e) :
    ∀ (xs : List γ) (e : SearchErr), xs.mapM f = .error e → P e := by
  intro xs
  induction xs with
  | nil => intro e h; cases h
  | cons a as ih =>
      intro e h
      rw [List.mapM_cons] at h
      cases hfa : f a with
      | error e2 =>
          rw [hfa] at h
          have h2 : (Except.error e2 : Except SearchErr (List String)) = .error e := h
          injection h2 with h3
          exact h3 ▸ hP a e2 hfa
      | ok b =>
          rw [hfa] at h
          cases hm : as.mapM f with
          | error e2 =>
              rw [hm] at h
              have h2 : (Except.error e2 : Except SearchErr (List String)) = .error e := h
              injection h2 with h3
              exact h3 ▸ ih e2 hm
          | ok bs =>
              rw [hm] at h
              exact absurd h (by intro hc; cases hc)

theorem mapM_error_of_unresolvable {γ : Type} (f : γ → Except SearchErr String)
    (xs : List γ) (x : γ) (hx : x ∈ xs) (hf : ∀ s, f x ≠ .ok s) :
    ∃ e, xs.mapM f = .error e := by
  induction xs with
  | nil => cases hx
  | cons a as ih =>
      rw [List.mapM_cons]
      cases hfa : f a with
      | error e => exact ⟨e, rfl⟩
      | ok b =>
          rcases List.mem_cons.mp hx with rfl | hx'
          · exact absurd hfa (hf b)
          · obtain ⟨e, he⟩ := ih hx'
            refine ⟨e, ?_⟩
            rw [he]
            rfl

theorem encodeDim_ok {γ : Type} (r : γ → Except SearchErr String)
    (arg : Option (List γ)) (s : String) (h : encodeDim r arg = .ok s) :
    (arg = none ∧ s = "all") ∨
    ∃ xs ids, arg = some xs ∧ xs.mapM r = .ok ids ∧
      s = String.intercalate "," ids := by
  cases arg with
  | none =>
      left
      refine ⟨rfl, ?_⟩
      have h2 : (Except.ok "all" : Except SearchErr String) = .ok s := h
      injection h2 with h3
      exact h3.symm
  | some xs =>
      right
      cases hm : xs.mapM r with
      | error e =>
          simp only [encodeDim] at h
          rw [hm] at h
          exact absurd h (by intro hc; cases hc)
      | ok ids =>
          refine ⟨xs, ids, rfl, hm, ?_⟩
          simp only [encodeDim] at h
          rw [hm] at h
          have h2 : (Except.ok (String.intercalate "," ids) : Except SearchErr String) = .ok s := h
          injection h2 with h3
          exact h3.symm

theorem encodeDim_error {γ : Type} (r : γ → Except SearchErr String)
    (arg : Option (List γ)) (e : SearchErr) (h : encodeDim r arg = .error e) :
    ∃ xs, arg = some xs ∧ xs.mapM r = .error e := by
  cases arg with
  | none => exact absurd h (by intro hc; cases hc)
  | some xs =>
      refine ⟨xs, rfl, ?_⟩
      cases hm : xs.mapM r with
      | error e2 =>
          simp only [encodeDim] at h
          rw [hm] at h
          have h2 : (Except.error e2 : Except SearchErr String) = .error e := h
          injection h2 with h3
          rw [← h3]
      | ok ids =>
          simp only [encodeDim] at h
          rw [hm] at h
          exact absurd h (by intro hc; cases hc)

theorem resolveUser_ok {cat : Catalog} {l : String} {s : String}
    (h : resolveUser cat l = .ok s) :
    ∃ u, dlookup cat.users_by_login l = some u ∧ s = jvalStr u.user_id := by
  unfold resolveUser at h
  cases hl : dlookup cat.users_by_login l with
  | none => rw [hl] at h; exact absurd h (by intro hc; cases hc)
  | some u =>
      rw [hl] at h
      refine ⟨u, rfl, ?_⟩
      injection h with h2
      exact h2.symm

theorem resolveContact_ok {cat : Catalog} {c : JVal} {s : String}
    (h : resolveContact cat c = .ok s) :
    ∃ ct, dlookup cat.contacts_by_code c = some ct ∧ s = jvalStr ct.contact_id := by
  unfold resolveContact at h
  cases hl : dlookup cat.contacts_by_code c with
  | none => rw [hl] at h; exact absurd h (by intro hc; cases hc)
  | some ct =>
      rw [hl] at h
      refine ⟨ct, rfl, ?_⟩
      injection h with h2
      exact h2.symm

theorem resolveProject_ok {cat : Catalog} {p : JVal} {s : String}
    (h : resolveProject cat p = .ok s) :
    ∃ pr, dlookup cat.projects_by_code p = some pr ∧ s = jvalStr pr.project_id := by
  unfold resolveProject at h
  cases hl : dlookup cat.projects_by_code p with
  | none => rw [hl] at h; exact absurd h (by intro hc; cases hc)
  | some pr =>
      rw [hl] at h
      refine ⟨pr, rfl, ?_⟩
      injection h with h2
      exact h2.symm

theorem dlookup_mem {α β : Type} [DecidableEq α] (d : Dict α β) (k : α) (v : β)
    (h : dlookup d k = some v) : v ∈ d.map Prod.snd := by
  induction d with
  | nil => cases h
  | cons p rest ih =>
      obtain ⟨k0, v0⟩ := p
      simp only [dlookup] at h
      by_cases hk : k0 = k
      · rw [if_pos hk] at h
        injection h with h2
        simp [h2]
      · rw [if_neg hk] at h
        exact List.mem_cons_of_mem _ (ih h)

theorem encodeFilters_ok (cat : Catalog) (a : SearchArgs) (sd : SearchDict)
    (h : encodeFilters cat a = .ok sd) :
    ∃ us cs ps, encodeDim (resolveUser cat) a.user_logins = .ok us ∧
      encodeDim (resolveContact cat) a.contacts = .ok cs ∧
      encodeDim (resolveProject cat) a.projects = .ok ps ∧
      sd = { users := us, contacts := cs, projects := ps,
             fromTo := a.date_range.map fun r => (fmtDate r.1, fmtDate r.2) } := by
  unfold encodeFilters at h
  cases hu : encodeDim (resolveUser cat) a.user_logins with
  | error e => rw [hu] at h; exact absurd h (by intro hc; cases hc)
  | ok us =>
      rw [hu] at h
      cases hc : encodeDim (resolveContact cat) a.contacts with
      | error e => rw [hc] at h; exact absurd h (by intro hc2; cases hc2)
      | ok cs =>
          rw [hc] at h
          cases hp : encodeDim (resolveProject cat) a.projects with
          | error e => rw [hp] at h; exact absurd h (by intro hc2; cases hc2)
          | ok ps =>
              rw [hp] at h
              refine ⟨us, cs, ps, rfl, rfl, rfl, ?_⟩
              have h2 : (Except.ok
                  ({ users := us, contacts := cs, projects := ps,
                     fromTo := a.date_range.map fun r => (fmtDate r.1, fmtDate r.2) } :
                    SearchDict) : Except SearchErr SearchDict) = .ok sd := h
              injection h2 with h3
              exact h3.symm

theorem encodeFilters_error (cat : Catalog) (a : SearchArgs) (e : SearchErr)
    (h : encodeFilters cat a = .error e) : ∃ k v, e = .lookupErr k v := by
  unfold encodeFilters at h
  cases hu : encodeDim (resolveUser cat) a.user_logins with
  | error e2 =>
      rw [hu] at h
      have h2 : (Except.error e2 : Except SearchErr SearchDict) = .error e := h
      injection h2 with h3
      subst h3
      obtain ⟨xs, _, hm⟩ := encodeDim_error _ _ _ hu
      refine mapM_error_shape (resolveUser cat) (fun er => ∃ k v, er = .lookupErr k v)
        ?_ xs e2 hm
      intro x er hx
      unfold resolveUser at hx
      cases hl : dlookup cat.users_by_login x with
      | some u => rw [hl] at hx; exact absurd hx (by intro hc; cases hc)
      | none =>
          rw [hl] at hx
          injection hx with h4
          exact ⟨.userKey, .jstr x, h4.symm⟩
  | ok us =>
      rw [hu] at h
      cases hc : encodeDim (resolveContact cat) a.contacts with
      | error e2 =>
          rw [hc] at h
          have h2 : (Except.error e2 : Except SearchErr SearchDict) = .error e := h
          injection h2 with h3
          subst h3
          obtain ⟨xs, _, hm⟩ := encodeDim_error _ _ _ hc
          refine mapM_error_shape (resolveContact cat) (fun er => ∃ k v, er = .lookupErr k v)
            ?_ xs e2 hm
          intro x er hx
          unfold resolveContact at hx
          cases hl : dlookup cat.contacts_by_code x with
          | some u => rw [hl] at hx; exact absurd hx (by intro hc2; cases hc2)
          | none =>
              rw [hl] at hx
              injection hx with h4
              exact ⟨.contactKey, x, h4.symm⟩
      | ok cs =>
          rw [hc] at h
          cases hp : encodeDim (resolveProject cat) a.projects with
          | error e2 =>
              rw [hp] at h
              have h2 : (Except.error e2 : Except SearchErr SearchDict) = .error e := h
              injection h2 with h3
              subst h3
              obtain ⟨xs, _, hm⟩ := encodeDim_error _ _ _ hp
              refine mapM_error_shape (resolveProject cat) (fun er => ∃ k v, er = .lookupErr k v)
                ?_ xs e2 hm
              intro x er hx
              unfold resolveProject at hx
              cases hl : dlookup cat.projects_by_code x with
              | some u => rw [hl] at hx; exact absurd hx (by intro hc2; cases hc2)
              | none =>
                  rw [hl] at hx
                  injection hx with h4
                  exact ⟨.projectKey, x, h4.symm⟩
          | ok ps =>
              rw [hp] at h
              exact absurd h (by intro hc2; cases hc2)

/-- C7: a search whose user-login, contact-code or project-code list
contains a key absent from the corresponding by-natural-key index fails
with a lookup error raised during filter encoding, and no
`entries.json` GET is ever issued (the request log is empty). -/
theorem search_unknown_key_fails (cat : Catalog) (t : Transport) (a : SearchArgs)
    (fuel : Nat)
    (hcase :
      (∃ ls, a.user_logins = some ls ∧ ∃ l ∈ ls, dlookup cat.users_by_login l = none) ∨
      (∃ cs, a.contacts = some cs ∧ ∃ c ∈ cs, dlookup cat.contacts_by_code c = none) ∨
      (∃ ps, a.projects = some ps ∧ ∃ p ∈ ps, dlookup cat.projects_by_code p = none)) :
    ∃ k v, entriesSearchLog cat t a fuel = (.error (.lookupErr k v), []) := by
  have herr : ∃ e, encodeFilters cat a = .error e := by
    cases hres : encodeFilters cat a with
    | error e => exact ⟨e, rfl⟩
    | ok sd =>
        obtain ⟨us, cs, ps, hu, hc, hp, _⟩ := encodeFilters_ok cat a sd hres
        exfalso
        rcases hcase with ⟨ls, hls, l, hl, hnone⟩ | ⟨csx, hcs, c, hcmem, hnone⟩ |
          ⟨psx, hps, p, hpmem, hnone⟩
        · rcases encodeDim_ok _ _ _ hu with ⟨hn, _⟩ | ⟨xs, ids, hxs, hm, _⟩
          · rw [hls] at hn; cases hn
          · rw [hls] at hxs
            injection hxs with h4
            subst h4
            obtain ⟨s, hs⟩ := mapM_ok_mem_resolves _ _ _ hm l hl
            unfold resolveUser at hs
            rw [hnone] at hs
            cases hs
        · rcases encodeDim_ok _ _ _ hc with ⟨hn, _⟩ | ⟨xs, ids, hxs, hm, _⟩
          · rw [hcs] at hn; cases hn
          · rw [hcs] at hxs
            injection hxs with h4
            subst h4
            obtain ⟨s, hs⟩ := mapM_ok_mem_resolves _ _ _ hm c hcmem
            unfold resolveContact at hs
            rw [hnone] at hs
            cases hs
        · rcases encodeDim_ok _ _ _ hp with ⟨hn, _⟩ | ⟨xs, ids, hxs, hm, _⟩
          · rw [hps] at hn; cases hn
          · rw [hps] at hxs
            injection hxs with h4
            subst h4
            obtain ⟨s, hs⟩ := mapM_ok_mem_resolves _ _ _ hm p hpmem
            unfold resolveProject at hs
            rw [hnone] at hs
            cases hs
  obtain ⟨e, he⟩ := herr
  obtain ⟨k, v, hkv⟩ := encodeFilters_error cat a e he
  refine ⟨k, v, ?_⟩
  unfold entriesSearchLog
  rw [he, hkv]

/-- C7 witness: searching an empty catalog for the login
`unknownuser` fails with a lookup error and an empty request log. -/
theorem search_unknown_key_fails_witness :
    ∃ k v, entriesSearchLog catEmpty twoPageTransport argsUnknownUser 5 =
      (.error (.lookupErr k v), []) :=
  search_unknown_key_fails catEmpty twoPageTransport argsUnknownUser 5
    (Or.inl ⟨["unknownuser"], rfl, "unknownuser", by simp, rfl⟩)

/-- C4 amended: each of the `users`/`contacts`/`projects` query values
is the literal `"all"` exactly when the corresponding argument is
omitted, and otherwise the comma-join of the (rendered) ids resolved
through the catalog index — so for `projects=[]` the transmitted
projects value is the empty string (the comma-join of no ids), not
`"all"`; the remote is queried without a usable project restriction
and only the local post-filter narrows the result. -/
theorem search_filter_encoding (cat : Catalog) (a : SearchArgs) (sd : SearchDict)
    (h : encodeFilters cat a = .ok sd) :
    (a.projects = some [] → sd.projects = "") ∧
    (a.user_logins = none → sd.users = "all") ∧
    (a.contacts = none → sd.contacts = "all") ∧
    (a.projects = none → sd.projects = "all") ∧
    (∀ ls, a.user_logins = some ls → ∃ ids, ls.mapM (resolveUser cat) = .ok ids ∧
      sd.users = String.intercalate "," ids ∧
      ∀ s ∈ ids, ∃ u, u ∈ cat.users_by_login.map Prod.snd ∧ s = jvalStr u.user_id) ∧
    (∀ cs, a.contacts = some cs → ∃ ids, cs.mapM (resolveContact cat) = .ok ids ∧
      sd.contacts = String.intercalate "," ids ∧
      ∀ s ∈ ids, ∃ c, c ∈ cat.contacts_by_code.map Prod.snd ∧ s = jvalStr c.contact_id) ∧
    (∀ ps, a.projects = some ps → ∃ ids, ps.mapM (resolveProject cat) = .ok ids ∧
      sd.projects = String.intercalate "," ids ∧
      ∀ s ∈ ids, ∃ p, p ∈ cat.projects_by_code.map Prod.snd ∧ s = jvalStr p.project_id) := by
  obtain ⟨us, cs, ps, hu, hc, hp, hsd⟩ := encodeFilters_ok cat a sd h
  subst hsd
  refine ⟨?_, ?_, ?_, ?_, ?_, ?_, ?_⟩
  · intro hps
    rw [hps] at hp
    have h2 : (Except.ok ("" : String) : Except SearchErr String) = .ok ps := hp
    injection h2 with h3
    exact h3.symm
  · intro hn
    rw [hn] at hu
    injection hu with h3
    exact h3.symm
  · intro hn
    rw [hn] at hc
    injection hc with h3
    exact h3.symm
  · intro hn
    rw [hn] at hp
    injection hp with h3
    exact h3.symm
  · intro ls hls
    rw [hls] at hu
    rcases encodeDim_ok _ _ _ hu with ⟨hn, _⟩ | ⟨xs, ids, hxs, hm, hval⟩
    · cases hn
    · injection hxs with h4
      subst h4
      refine ⟨ids, hm, hval, ?_⟩
      intro s hs
      obtain ⟨x, _, hfx⟩ := mapM_ok_outputs _ _ _ hm s hs
      obtain ⟨u, hlu, hsu⟩ := resolveUser_ok hfx
      exact ⟨u, dlookup_mem _ _ _ hlu, hsu⟩
  · intro csx hcs
    rw [hcs] at hc
    rcases encodeDim_ok _ _ _ hc with ⟨hn, _⟩ | ⟨xs, ids, hxs, hm, hval⟩
    · cases hn
    · injection hxs with h4
      subst h4
      refine ⟨ids, hm, hval, ?_⟩
      intro s hs
      obtain ⟨x, _, hfx⟩ := mapM_ok_outputs _ _ _ hm s hs
      obtain ⟨ct, hlc, hsc⟩ := resolveContact_ok hfx
      exact ⟨ct, dlookup_mem _ _ _ hlc, hsc⟩
  · intro psx hps
    rw [hps] at hp
    rcases encodeDim_ok _ _ _ hp with ⟨hn, _⟩ | ⟨xs, ids, hxs, hm, hval⟩
    · cases hn
    · injection hxs with h4
      subst h4
      refine ⟨ids, hm, hval, ?_⟩
      intro s hs
      obtain ⟨x, _, hfx⟩ := mapM_ok_outputs _ _ _ hm s hs
      obtain ⟨pr, hlp, hsp⟩ := resolveProject_ok hfx
      exact ⟨pr, dlookup_mem _ _ _ hlp, hsp⟩

/-- C4 counterexample: with `projects=[]` the query dictionary sent to
the remote carries `projects=""` — the comma-join of an empty id list —
and not the literal string `"all"`. -/
theorem search_empty_projects_value_not_all :
    encodeFilters catEmpty argsEmptyProjects =
      .ok { users := "all", contacts := "all", projects := "", fromTo := none } ∧
    ("" : String) ≠ "all" :=
  ⟨rfl, by decide⟩

/-- C4 witness: the amended encoding theorem applied at concrete
arguments with `projects=[]`. -/
theorem search_filter_encoding_witness :
    ({ users := "all", contacts := "all", projects := "", fromTo := none } :
      SearchDict).projects = "" :=
  (search_filter_encoding catEmpty argsEmptyProjects _ rfl).1 rfl

/-- C3: when `entries_search` is called with `projects=[]`, every entry
it returns has its project reference unset (`project_id` is JSON
null). -/
theorem search_empty_projects_filter (cat : Catalog) (t : Transport) (a : SearchArgs)
    (fuel : Nat) (es : List Entry) (log : List Nat)
    (hp : a.projects = some [])
    (h : entriesSearchLog cat t a fuel = (.ok es, log)) :
    ∀ e ∈ es, e.project_id = JVal.jnull := by
  unfold entriesSearchLog at h
  split at h
  · exact absurd h (by intro hc; injection hc with hca hcb; cases hca)
  · split at h
    · exact absurd h (by intro hc; injection hc with hca hcb; cases hca)
    · split at h
      · exact absurd h (by intro hc; injection hc with hca hcb; cases hca)
      · injection h with h1 h2
        injection h1 with h3
        rw [hp, if_pos rfl] at h3
        intro e he
        rw [← h3] at he
        simpa using (List.mem_filter.mp he).2

/-- C3 witness: a concrete search with `projects=[]` over a transport
serving one project-less and one project-bearing record returns exactly
the project-less entry, whose `project_id` is null. -/
theorem search_empty_projects_filter_witness :
    entryNoProj.project_id = JVal.jnull :=
  search_empty_projects_filter catEmpty entryPageTransport argsEmptyProjects 3
    [entryNoProj] [0, 2] rfl rfl entryNoProj (by simp)

/-! ## Catalog index uniqueness -/

theorem setKey_not_mem {α β : Type} [DecidableEq α] (d : Dict α β) (k : α) (v : β)
    (h : ∀ p ∈ d, Prod.fst p ≠ k) : setKey d k v = d ++ [(k, v)] := by
  induction d with
  | nil => rfl
  | cons p rest ih =>
      obtain ⟨k0, v0⟩ := p
      have hk : k0 ≠ k := h (k0, v0) (by simp)
      simp only [setKey, if_neg hk]
      rw [ih fun p hp => h p (List.mem_cons_of_mem _ hp)]
      simp

theorem list2dict_aux {α β : Type} [DecidableEq α] (key : β → α) :
    ∀ (lst : List β) (acc : Dict α β),
    (lst.Pairwise fun a b => key a ≠ key b) →
    (∀ b ∈ lst, ∀ p ∈ acc, Prod.fst p ≠ key b) →
    lst.foldl (fun d i => setKey d (key i) i) acc =
      acc ++ lst.map fun b => (key b, b) := by
  intro lst
  induction lst with
  | nil => intro acc _ _; simp
  | cons a as ih =>
      intro acc hpw hacc
      simp only [List.foldl_cons]
      rw [setKey_not_mem acc (key a) a fun p hp => hacc a (by simp) p hp]
      rw [ih (acc ++ [(key a, a)]) (List.Pairwise.of_cons hpw) ?_]
      · simp
      · intro b hb p hp
        rcases List.mem_append.mp hp with hp1 | hp2
        · exact hacc b (List.mem_cons_of_mem _ hb) p hp1
        · have hpa : p = (key a, a) := by simpa using hp2
          rw [hpa]
          exact (List.pairwise_cons.mp hpw).1 b hb

theorem list2dict_eq_map {α β : Type} [DecidableEq α] (lst : List β) (key : β → α)
    (hnd : lst.Pairwise fun a b => key a ≠ key b) :
    list2dict lst key = lst.map fun b => (key b, b) := by
  have h := list2dict_aux key lst [] hnd (by simp)
  simpa [list2dict] using h

theorem filter_eq_length_one {β : Type} [DecidableEq β] (lst : List β) (v : β)
    (hnd : lst.Nodup) (hv : v ∈ lst) :
    (lst.filter fun b => decide (b = v)).length = 1 := by
  induction lst with
  | nil => cases hv
  | cons a as ih =>
      rw [List.filter_cons]
      by_cases hav : a = v
      · subst hav
        rw [if_pos (by simp)]
        have hna : a ∉ as := (List.nodup_cons.mp hnd).1
        have hfilter : as.filter (fun b => decide (b = a)) = [] :=
          List.filter_eq_nil_iff.mpr fun b hb => by
            simp only [decide_eq_true_eq]
            intro he
            exact hna (he ▸ hb)
        rw [hfilter]
        rfl
      · rw [if_neg (by simpa using hav)]
        have hv' : v ∈ as := by
          rcases List.mem_cons.mp hv with rfl | hv2
          · exact absurd rfl hav
          · exact hv2
        exact ih (List.nodup_cons.mp hnd).2 hv'

theorem slotCount_list2dict {α β : Type} [DecidableEq α] [DecidableEq β]
    (lst : List β) (key : β → α)
    (hnd : lst.Pairwise fun a b => key a ≠ key b) (v : β) (hv : v ∈ lst) :
    slotCount (list2dict lst key) v = 1 := by
  rw [list2dict_eq_map lst key hnd]
  unfold slotCount
  rw [List.filter_map, List.length_map]
  have hnodup : lst.Nodup := List.Pairwise.imp (fun h he => h (congrArg key he)) hnd
  exact filter_eq_length_one lst v hnodup hv

/-- C9 amended: after a bootstrap in which the ids and the natural keys
(login / short code) of each catalog kind are pairwise distinct, every
catalog entity occupies exactly one slot of its by-id index and exactly
one slot of its by-natural-key index. -/
theorem catalog_indexes_unique (ru rc rp : List RawObj) (cat : Catalog)
    (h : mkCatalog ru rc rp = some cat)
    (hui : cat.users.Pairwise fun a b => a.user_id ≠ b.user_id)
    (hul : cat.users.Pairwise fun a b => a.login ≠ b.login)
    (hci : cat.contacts.Pairwise fun a b => a.contact_id ≠ b.contact_id)
    (hcc : cat.contacts.Pairwise fun a b => a.short_code ≠ b.short_code)
    (hpi : cat.projects.Pairwise fun a b => a.project_id ≠ b.project_id)
    (hpc : cat.projects.Pairwise fun a b => a.short_code ≠ b.short_code) :
    (∀ u ∈ cat.users,
      slotCount cat.users_by_id u = 1 ∧ slotCount cat.users_by_login u = 1) ∧
    (∀ c ∈ cat.contacts,
      slotCount cat.contacts_by_id c = 1 ∧ slotCount cat.contacts_by_code c = 1) ∧
    (∀ p ∈ cat.projects,
      slotCount cat.projects_by_id p = 1 ∧ slotCount cat.projects_by_code p = 1) := by
  simp only [mkCatalog, bind, Option.bind_eq_some] at h
  obtain ⟨us, hus, cs, hcs, ps, hps, he⟩ := h
  injection he with he2
  subst he2
  refine ⟨fun u hu => ⟨?_, ?_⟩, fun c hc => ⟨?_, ?_⟩, fun p hp => ⟨?_, ?_⟩⟩
  · exact slotCount_list2dict us User.user_id hui u hu
  · exact slotCount_list2dict us User.login hul u hu
  · exact slotCount_list2dict cs Contact.contact_id hci c hc
  · exact slotCount_list2dict cs Contact.short_code hcc c hc
  · exact slotCount_list2dict ps Project.project_id hpi p hp
  · exact slotCount_list2dict ps Project.short_code hpc p hp

/-- C9 witness: a bootstrap of two users (distinct ids and logins), one
contact and one project puts every entity in exactly one slot of each
of its two indexes. -/
theorem catalog_indexes_unique_witness :
    ∃ cat, mkCatalog [rawUserA, rawUserB] [rawContactC] [rawProjectP] = some cat ∧
      ((∀ u ∈ cat.users,
        slotCount cat.users_by_id u = 1 ∧ slotCount cat.users_by_login u = 1) ∧
      (∀ c ∈ cat.contacts,
        slotCount cat.contacts_by_id c = 1 ∧ slotCount cat.contacts_by_code c = 1) ∧
      (∀ p ∈ cat.projects,
        slotCount cat.projects_by_id p = 1 ∧ slotCount cat.projects_by_code p = 1)) := by
  refine ⟨_, rfl, ?_⟩
  exact catalog_indexes_unique [rawUserA, rawUserB] [rawContactC] [rawProjectP] _ rfl
    (by decide) (by decide) (by decide) (by decide) (by decide) (by decide)

/-- C9 counterexample: when two users' emails share a local part, the
derived logins collide and the first user is silently dropped from
`users_by_login` — it appears in zero slots, not exactly one. -/
theorem catalog_index_collision :
    ∃ cat, mkCatalog [rawUserA, rawUserA2] [] [] = some cat ∧
      ∃ u ∈ cat.users, slotCount cat.users_by_login u ≠ 1 := by
  refine ⟨_, rfl, ?_⟩
  decide

end MD
